import Mathlib

/-!
Verification of the text-extraction pipeline of `scripts/modernize`:
the codebase assessment engine (`assess_codebase.py`) and the
plan-to-task parser (`create_refactor_issues.py`).

Raw text is modelled as `List Char`.  The Python string primitives the
scripts use (`str.count`, `str.split`, `str.strip`, `str.lower`,
`re.search`, `re.finditer`) are given executable Lean counterparts,
each annotated with the Python behaviour it reproduces.  Filesystem and
network effects are made explicit inputs: file contents, directory
listings, the rendering timestamp and the issue-tracker client are
passed in as values.
-/

set_option maxRecDepth 20000

/-- Python whitespace class `\s` over ASCII text: space, tab, newline,
carriage return, vertical tab, form feed. -/
def isPySpace (c : Char) : Bool :=
  c = ' ' || c = '\t' || c = '\n' || c = '\r' || c = '\x0b' || c = '\x0c'

/-- Python word-character class `\w` over ASCII text. -/
def isWordChar (c : Char) : Bool := c.isAlphanum || c = '_'

/-- Python `str.strip()`: drop whitespace from both ends. -/
def pyStrip (s : List Char) : List Char :=
  ((s.dropWhile isPySpace).reverse.dropWhile isPySpace).reverse

/-- Drop whitespace from the end only (the second half of `pyStrip`,
used to state intermediate facts about it). -/
def stripEnd (s : List Char) : List Char :=
  (s.reverse.dropWhile isPySpace).reverse

/-- Python `str.split` for the single separator `'\n'`: the chunks
between newlines.  As in Python, the empty string splits into one empty
chunk. -/
def splitNl : List Char → List (List Char)
  | [] => [[]]
  | c :: rest =>
    if c = '\n' then [] :: splitNl rest
    else
      match splitNl rest with
      | [] => [[c]]
      | h :: t => (c :: h) :: t

/-- Iterating a Python text file yields one item per line; a trailing
newline does not open a final empty line. -/
def pyFileLines (s : List Char) : List (List Char) :=
  let ps := splitNl s
  if ps.getLast? = some [] then ps.dropLast else ps

/-- `count_lines` on already-decoded file text (`sum(1 for _ in f)`).
The script returns 0 on a read or decode failure; a failed read is
modelled by passing empty text. -/
def count_lines (s : List Char) : Nat := (pyFileLines s).length

/-- Match a literal at the head of the text, returning the remainder
after it, or `none` when the text does not start with the literal. -/
def dropLit (lit : List Char) (s : List Char) : Option (List Char) :=
  match lit, s with
  | [], r => some r
  | _ :: _, [] => none
  | a :: l, b :: r => if a = b then dropLit l r else none

/-- Python substring containment (`needle in hay`). -/
def containsSub (needle : List Char) : List Char → Bool
  | [] => needle.isEmpty
  | c :: rest => needle.isPrefixOf (c :: rest) || containsSub needle rest

/-- Python `str.count(sub)`: non-overlapping occurrences found scanning
left to right.  Written with fuel so that the kernel can evaluate it;
`hay.length` fuel always suffices because every step consumes at least
one character. -/
def countOccurAux (needle : List Char) : Nat → List Char → Nat
  | 0, _ => 0
  | _ + 1, [] => 0
  | fuel + 1, c :: rest =>
    if needle.isPrefixOf (c :: rest) then
      1 + countOccurAux needle fuel (List.drop (needle.length - 1) rest)
    else countOccurAux needle fuel rest

def countOccur (needle hay : List Char) : Nat := countOccurAux needle hay.length hay

/-- Python `str.split(sep, 1)[0]`: the text before the first occurrence
of `sep`, or the whole text when `sep` does not occur. -/
def beforeFirst (sep : List Char) : List Char → List Char
  | [] => []
  | c :: rest =>
    if sep.isPrefixOf (c :: rest) then []
    else c :: beforeFirst sep rest

/-- Python `str.lower()` for the ASCII text these scripts handle.
(`String.toLower` itself is avoided because its byte-position recursion
does not evaluate inside the kernel.) -/
def pyLower (s : String) : String := String.mk (s.data.map Char.toLower)

/-- Python format spec `{n:,}`: decimal digits with thousands
separators.  The helper receives the reversed digit list. -/
def commaGroups : List Char → List Char
  | a :: b :: c :: d :: rest => a :: b :: c :: ',' :: commaGroups (d :: rest)
  | l => l

def pyThousands (n : Nat) : String :=
  String.mk (commaGroups (toString n).data.reverse).reverse

/-! ## `assess_codebase.py`: complexity heuristic -/

/-- One attempt of the regex `def\s+(\w+)\s*\(` anchored at the start of
`s` (Python `re` semantics; each greedy class here is followed by a
disjoint literal, so no backtracking can occur).  Returns the captured
function name and the number of characters the match consumes. -/
def defMatchAt (s : List Char) : Option (String × Nat) :=
  match dropLit ['d', 'e', 'f'] s with
  | none => none
  | some r1 =>
    let ws1 := r1.takeWhile isPySpace
    let r2 := r1.dropWhile isPySpace
    if ws1.isEmpty then none
    else
      let nm := r2.takeWhile isWordChar
      let r3 := r2.dropWhile isWordChar
      if nm.isEmpty then none
      else
        let ws2 := r3.takeWhile isPySpace
        let r4 := r3.dropWhile isPySpace
        match r4 with
        | '(' :: _ => some (String.mk nm, 3 + ws1.length + nm.length + ws2.length + 1)
        | _ => none

/-- `re.finditer` for the function-definition pattern: scan left to
right, emit non-overlapping matches, resume right after each match.
Each result carries the captured name and the match start position. -/
def scanDefsAux : Nat → List Char → Nat → List (String × Nat)
  | 0, _, _ => []
  | fuel + 1, s, pos =>
    match s with
    | [] => []
    | _ :: _ =>
      match defMatchAt s with
      | some (nm, len) => (nm, pos) :: scanDefsAux fuel (s.drop len) (pos + len)
      | none => scanDefsAux fuel (s.drop 1) (pos + 1)

def scanDefs (s : List Char) : List (String × Nat) := scanDefsAux s.length s 0

/-- The keyword set of `detect_complexity`, in source order. -/
def decisionKeywords : List (List Char) :=
  ["if", "for", "while", "and", "or", "elif", "except"].map String.data

/-- The per-match score of `detect_complexity`: the slice
`content[match.start():]` is split at its first occurrence of the
substring `def` and each decision keyword is counted in the piece
before that occurrence.  The slice itself begins with the `def` of the
match, so the split point is offset 0 and the counted piece is empty. -/
def funcComplexity (content : List Char) (p : Nat) : Nat :=
  let body := beforeFirst ['d', 'e', 'f'] (content.drop p)
  decisionKeywords.foldl (fun acc kw => acc + countOccur kw body) 0

/-- `detect_complexity`: every function match whose score exceeds 10,
as (name, score), in match order. -/
def detect_complexity (content : List Char) : List (String × Nat) :=
  (scanDefs content).filterMap fun m =>
    let c := funcComplexity content m.2
    if 10 < c then some (m.1, c) else none

/-- Claim-side comparator for C1 and C7: the body window the
specification describes, from the match start to the next occurrence
of `def` strictly after the match start (or end of file when none).
Because the match starts with the literal `def`, no occurrence can
begin at offsets 1 or 2, so the window is those three characters
followed by the text before the first `def` of the remainder. -/
def claimWindow (content : List Char) (p : Nat) : List Char :=
  let t := content.drop p
  t.take 3 ++ beforeFirst ['d', 'e', 'f'] (t.drop 3)

/-- Claim-side score: decision keywords counted over `claimWindow`. -/
def claimScore (content : List Char) (p : Nat) : Nat :=
  decisionKeywords.foldl (fun acc kw => acc + countOccur kw (claimWindow content p)) 0

/-- Claim-side flagging: functions whose claim-side score exceeds 10. -/
def detect_complexity_claim (content : List Char) : List (String × Nat) :=
  (scanDefs content).filterMap fun m =>
    let c := claimScore content m.2
    if 10 < c then some (m.1, c) else none

/-! ## `assess_codebase.py`: TODO scan and aggregation -/

/-- `find_todos`: every line containing `TODO` or `FIXME`, rendered as
`name:line: stripped-text` with 1-based line numbers.  `fileName` is
the basename of the file (`path.name`). -/
def find_todos (fileName : String) (content : List Char) : List String :=
  (List.enumFrom 1 (pyFileLines content)).filterMap fun il =>
    if containsSub "TODO".data il.2 || containsSub "FIXME".data il.2 then
      some (fileName ++ ":" ++ toString il.1 ++ ": " ++ String.mk (pyStrip il.2))
    else none

/-- A discovered source file: its path relative to the root (used for
large-file and complexity findings), its basename (used by the TODO
scan) and its decoded text. -/
structure SrcFile where
  relPath : String
  name : String
  content : List Char
deriving DecidableEq

/-- The `results` dictionary of `analyze_codebase`. -/
structure Results where
  total_files : Nat
  total_lines : Nat
  languages : List (String × Nat)
  large_files : List (String × Nat)
  complex_functions : List (String × String × Nat)
  todos : List String
  test_files : Nat
  framework : String
deriving DecidableEq

/-- `analyze_codebase` with the filesystem made explicit: the Python
and JS/TS files in directory-walk order, the framework marker-file
facts, the `package.json` dependency names (`none` models a parse
failure) and the test-file glob count. -/
def analyze_codebase (pyFiles jsFiles : List SrcFile)
    (hasManagePy hasAppPy hasWsgiPy hasPackageJson : Bool)
    (pkgDeps : Option (List String)) (testFileCount : Nat) : Results :=
  { total_files := pyFiles.length + jsFiles.length
    total_lines :=
      pyFiles.foldl (fun a f => a + count_lines f.content) 0 +
      jsFiles.foldl (fun a f => a + count_lines f.content) 0
    languages :=
      (if pyFiles.isEmpty then [] else [("Python", pyFiles.length)]) ++
      (if jsFiles.isEmpty then [] else [("JavaScript/TypeScript", jsFiles.length)])
    large_files :=
      pyFiles.filterMap (fun f =>
        let n := count_lines f.content
        if 500 < n then some (f.relPath, n) else none) ++
      jsFiles.filterMap (fun f =>
        let n := count_lines f.content
        if 500 < n then some (f.relPath, n) else none)
    complex_functions :=
      pyFiles.flatMap fun f =>
        (detect_complexity f.content).map fun nc => (f.relPath, nc.1, nc.2)
    todos :=
      pyFiles.flatMap (fun f => find_todos f.name f.content) ++
      jsFiles.flatMap (fun f => find_todos f.name f.content)
    test_files := testFileCount
    framework :=
      if hasManagePy then "Django"
      else if hasAppPy || hasWsgiPy then "Flask"
      else if hasPackageJson then
        match pkgDeps with
        | some deps =>
          if deps.contains "react" then "React"
          else if deps.contains "express" then "Express"
          else "Unknown"
        | none => "Unknown"
      else "Unknown" }

/-! ## `assess_codebase.py`: report renderer

`generate_assessment_report` is not a function of the results alone:
it reads the clock (`datetime.now()`) and the filesystem
(`root_dir.iterdir()`) while rendering.  Both effects are explicit
inputs here: `now` is the formatted timestamp and `dirEntries` is the
sorted top-level directory listing as (name, is-directory) pairs. -/

/-- Python `name.startswith(".")`. -/
def startsWithDot (s : String) : Bool :=
  match s.data with
  | c :: _ => c = '.'
  | [] => false

/-- The sort the renderer applies to `large_files`:
`sorted(..., key=lambda x: x[1], reverse=True)`.  Python `sorted` is
stable, so it is modelled by insertion sort under the non-strict
descending relation, which is extensionally the unique stable
descending sort. -/
def sortByLinesDesc (l : List (String × Nat)) : List (String × Nat) :=
  List.insertionSort (fun a b => b.2 ≤ a.2) l

/-- The sort the renderer applies to `complex_functions`
(`key=lambda x: x[2], reverse=True`). -/
def sortByScoreDesc (l : List (String × String × Nat)) : List (String × String × Nat) :=
  List.insertionSort (fun a b => b.2.2 ≤ a.2.2) l

def reportHead : String := "# Legacy Codebase Assessment\n\nGenerated: "

def execSummary (r : Results) : String :=
  "\n\n## Executive Summary\n\n- **Total Files**: " ++ toString r.total_files ++
  "\n- **Total Lines**: " ++ pyThousands r.total_lines ++
  "\n- **Languages**: " ++
  String.intercalate ", " (r.languages.map fun kv => kv.1 ++ " (" ++ toString kv.2 ++ " files)") ++
  "\n- **Framework**: " ++ r.framework ++
  "\n- **Test Files**: " ++ toString r.test_files ++
  "\n- **Large Files (>500 lines)**: " ++ toString r.large_files.length ++
  "\n- **Complex Functions (complexity >10)**: " ++ toString r.complex_functions.length ++
  "\n- **TODO/FIXME Comments**: " ++ toString r.todos.length ++
  "\n\n## Functionality Inventory\n\n### Core Features\n\n*Manual review needed. Key areas to document:*\n- Main user-facing features\n- Business logic components\n- Data models and relationships\n- External integrations\n\n### Entry Points\n\n"

def entryPointsBlock (framework : String) : String :=
  if framework = "Django" then
    "*Django project:*\n- `manage.py runserver` - Development server\n- `manage.py` - Management commands\n- Check `urls.py` for API endpoints\n- Check `admin.py` for admin interface\n\n"
  else if framework = "Flask" then
    "*Flask project:*\n- Look for `app.py` or `wsgi.py`\n- Check route decorators (@app.route)\n\n"
  else if framework = "React" then
    "*React project:*\n- `npm start` - Development server\n- Check `src/App.js` or `src/App.tsx`\n- Review `package.json` scripts\n\n"
  else ""

def archHead : String := "## Architecture\n\n### Current Structure\n\n```\n"

/-- The directory loop: every non-hidden directory name, one per line. -/
def dirTreeBlock (dirEntries : List (String × Bool)) : String :=
  String.join (dirEntries.filterMap fun e =>
    if e.2 && !startsWithDot e.1 then some (e.1 ++ "/\n") else none)

def archTail : String := "```\n\n### Issues\n\n"

/-- The displayed large-file lines: top 10 after the descending sort. -/
def largeItems (lf : List (String × Nat)) : List String :=
  ((sortByLinesDesc lf).take 10).map fun p =>
    "- ❌ `" ++ p.1 ++ "` (" ++ pyThousands p.2 ++ " lines) - Consider splitting\n"

def largeFilesBlock (lf : List (String × Nat)) : String :=
  if lf.isEmpty then ""
  else "**Large Files (>500 lines):**\n\n" ++ String.join (largeItems lf) ++ "\n"

/-- The displayed complex-function lines: top 10 after the sort. -/
def complexItems (cf : List (String × String × Nat)) : List String :=
  ((sortByScoreDesc cf).take 10).map fun t =>
    "- ⚠️  `" ++ t.1 ++ "::" ++ t.2.1 ++ "` (complexity: " ++ toString t.2.2 ++ ") - REFACTOR\n"

def complexFunctionsBlock (cf : List (String × String × Nat)) : String :=
  if cf.isEmpty then ""
  else "**Complex Functions (>10 decision points):**\n\n" ++ String.join (complexItems cf) ++ "\n"

def depsBlock : String :=
  "### Dependencies\n\n*Manual review needed:*\n- Check `requirements.txt` or `package.json`\n- Run security audits: `pip-audit` or `npm audit`\n- Check for outdated dependencies\n\n"

def testCovHead : String := "## Test Coverage\n\n### Current State\n\n"

def testCoverageState (tf : Nat) : String :=
  if tf = 0 then
    "- ❌ **No test files found** - CRITICAL RISK\n- This is the highest priority for modernization\n"
  else if tf < 10 then
    "- ⚠️  **Only " ++ toString tf ++ " test files found** - LOW COVERAGE\n- Significant testing gaps likely exist\n"
  else
    "- ✅ " ++ toString tf ++ " test files found\n- Coverage analysis needed (run `pytest --cov` or `npm test -- --coverage`)\n"

def gapsBlock : String :=
  "\n### Gaps\n\n**Critical paths needing characterization tests:**\n1. Payment processing (if applicable)\n2. User authentication\n3. Data validation logic\n4. External API integrations\n5. Business rule implementations\n\n**Action**: Begin with characterization tests for critical paths.\n\n"

def codeQualHead : String := "## Code Quality\n\n### Complexity\n\n"

def complexitySummary (cf : List (String × String × Nat)) : String :=
  if cf.isEmpty then "- ✅ No obviously complex functions detected (basic heuristic)\n"
  else
    "- Found " ++ toString cf.length ++ " functions with high complexity\n- Top offenders listed above\n- **Action**: Refactor complex functions using Extract Method pattern\n"

def techDebtHead : String := "\n### Technical Debt\n\n"

/-- The truncation notice of the TODO section. -/
def todoMoreLine (n : Nat) : String := "\n... and " ++ toString n ++ " more\n"

def todoItemLines (shown : List String) : String :=
  String.join (shown.map fun t => "- " ++ t ++ "\n")

/-- The TODO list actually displayed: all of them (the `[:20]` slice)
when there are at most 20, otherwise only the first 10. -/
def displayedTodos (todos : List String) : List String :=
  if todos.length ≤ 20 then todos.take 20 else todos.take 10

def todosBlock (todos : List String) : String :=
  if todos.isEmpty then "- ✅ No TODO/FIXME comments found\n\n"
  else
    "**TODO/FIXME Comments: " ++ toString todos.length ++ "**\n\n" ++
    (if todos.length ≤ 20 then todoItemLines (todos.take 20)
     else todoItemLines (todos.take 10) ++ todoMoreLine (todos.length - 10)) ++
    "\n**Action**: Convert TODOs to GitHub Issues\n\n"

def lintingBlock : String :=
  "### Linting\n\n*Run linters to get detailed report:*\n- Python: `ruff check .`\n- JavaScript/TypeScript: `npx eslint .`\n\n"

def riskHead : String := "## Risk Assessment\n\n### High Risk Areas\n\n"

def highRiskBlock (r : Results) : String :=
  let hr : List String :=
    (if r.test_files = 0 then ["❌ **No tests** - Any change is risky"] else []) ++
    (if r.complex_functions.isEmpty then []
     else ["❌ **" ++ toString r.complex_functions.length ++ " complex functions** - Hard to understand and modify"]) ++
    (if r.large_files.isEmpty then []
     else ["❌ **" ++ toString r.large_files.length ++ " large files** - Difficult to maintain"])
  if hr.isEmpty then "- ✅ No obvious high-risk areas detected\n"
  else String.join (hr.map fun s => s ++ "\n")

def mitigationBlock : String :=
  "\n### Mitigation Strategy\n\n1. **Write characterization tests first** - Create safety net\n2. **Start with quick wins** - Fix linting, remove dead code\n3. **Refactor incrementally** - Small, safe changes\n4. **Monitor coverage** - Ensure tests increase with changes\n\n"

def refactorHead : String :=
  "## Refactor Opportunities\n\n### Quick Wins (Low Risk, High Value)\n\n1. ✅ Run linters and fix auto-fixable issues\n2. ✅ Add docstrings to public functions\n3. ✅ Remove dead code (unused imports, functions)\n4. ✅ Extract hardcoded values to configuration\n5. ✅ Update dependencies (with tests)\n\n### Strategic Refactors (High Value, Requires Planning)\n\n"

def strategicRefactors (r : Results) : String :=
  (if r.large_files.isEmpty then "" else "1. 📋 Split large files into smaller modules\n") ++
  (if r.complex_functions.isEmpty then "" else "2. 📋 Refactor complex functions (Extract Method pattern)\n")

def refactorTail : String :=
  "3. 📋 Extract business logic into service layer\n4. 📋 Add comprehensive logging\n5. 📋 Improve error handling\n\n### Long-Term Improvements\n\n1. 🔮 Add API layer (if web app)\n2. 🔮 Implement caching strategy\n3. 🔮 Add monitoring and alerting\n4. 🔮 Containerize application (Docker)\n\n"

def recommendedHead : String :=
  "## Recommended Approach\n\n### Phase 1: Stabilize (Weeks 1-2)\n\n1. ✅ Import template scaffolding (DONE)\n2. ✅ Run this assessment (DONE)\n3. 📋 Write characterization tests for critical paths\n4. 📋 Fix security vulnerabilities (if any)\n5. 📋 Update critical dependencies\n\n### Phase 2: Quick Wins (Weeks 3-4)\n\n1. 📋 Run linters, fix auto-fixable issues\n2. 📋 Remove dead code\n3. 📋 Add missing docstrings\n4. 📋 Extract configuration to environment variables\n5. 📋 Improve test coverage to 50%\n\n### Phase 3: Strategic Refactor (Months 2-3)\n\n"

def phase3Items (r : Results) : String :=
  (if r.large_files.isEmpty then "" else "1. 📋 Split large files into modules\n") ++
  (if r.complex_functions.isEmpty then "" else "2. 📋 Refactor complex functions\n")

def recommendedTail : String :=
  "3. 📋 Extract service layer\n4. 📋 Add API layer (if applicable)\n5. 📋 Improve test coverage to 80%\n\n### Phase 4: Long-Term (Months 4-6)\n\n1. 📋 Consider architectural improvements\n2. 📋 Add caching and optimization\n3. 📋 Implement monitoring\n4. 📋 Add CI/CD pipeline\n\n"

def nextStepsBlock : String :=
  "## Next Steps\n\n1. **Review this assessment** with your team\n2. **Create refactor plan**: `docs/modernization/refactor-plan.md`\n   - Break phases into discrete tasks\n   - Prioritize by risk and value\n   - Define acceptance criteria\n3. **Begin characterization tests**: `docs/modernization/characterization-tests.md`\n   - Start with critical paths\n   - Aim for 80%+ coverage before refactoring\n4. **Create GitHub Issues**: `python scripts/modernize/create_refactor_issues.py`\n5. **Start with quick wins** to build momentum\n\n## Success Criteria\n\n- [ ] Test coverage >80%\n- [ ] All linting issues resolved\n- [ ] No security vulnerabilities\n- [ ] No functions with complexity >10\n- [ ] No files >500 lines\n- [ ] All critical paths have characterization tests\n- [ ] Dependencies up-to-date\n- [ ] Documentation complete\n\n---\n\n**Generated by:** `scripts/modernize/assess_codebase.py`\n\n**See also:**\n- Planning: `docs/planning/features/FEAT-003-legacy-code-modernization.md`\n- Rules: `.cursorrules` (search for \"Legacy Code Modernization\")\n"

/-- `generate_assessment_report`: the full markdown report, in the
exact section order of the source, as a function of the results, the
rendering timestamp and the top-level directory listing. -/
def generate_assessment_report (now : String) (dirEntries : List (String × Bool))
    (r : Results) : String :=
  reportHead ++ now ++ execSummary r ++ entryPointsBlock r.framework ++
  archHead ++ dirTreeBlock dirEntries ++ archTail ++
  largeFilesBlock r.large_files ++ complexFunctionsBlock r.complex_functions ++
  depsBlock ++ testCovHead ++ testCoverageState r.test_files ++ gapsBlock ++
  codeQualHead ++ complexitySummary r.complex_functions ++ techDebtHead ++
  todosBlock r.todos ++ lintingBlock ++
  riskHead ++ highRiskBlock r ++ mitigationBlock ++
  refactorHead ++ strategicRefactors r ++ refactorTail ++
  recommendedHead ++ phase3Items r ++ recommendedTail ++ nextStepsBlock

/-! ## `create_refactor_issues.py`: plan parser

The task pattern is `####\s+TASK-(\d+):\s+(.+?)(?=####|$)` compiled
with `re.DOTALL`.  The lazy group stops at the earliest position where
`####` follows, where the input ends, or — since `$` without MULTILINE
also matches just before a final newline — where exactly one trailing
newline remains. -/

/-- The stop test of the lookahead `(?=####|$)`, applied to the suffix
that remains after the lazy group has consumed some characters.  It
only receives true suffixes of the whole document, so emptiness means
end of input. -/
def hashStop (t : List Char) : Bool :=
  List.isPrefixOf "####".data t || t.isEmpty || t = ['\n']

/-- Lazy consumption after the first (mandatory) character: stop as
soon as `hashStop` holds, otherwise consume. -/
def lazyGo : List Char → List Char
  | [] => []
  | d :: t => if hashStop (d :: t) then [] else d :: lazyGo t

/-- The text matched by `(.+?)(?=####|$)`: at least one character, then
the earliest stop. -/
def lazyChunk : List Char → List Char
  | [] => []
  | c :: t => c :: lazyGo t

/-- One attempt of the task-heading pattern anchored at the start of
`s`.  Returns (digit group, lazy group, characters consumed).  The
greedy `\s+` after the colon backtracks exactly when nothing but
whitespace remains, in which case the lazy group takes the final
whitespace character (verified against CPython `re`). -/
def taskMatchAt (s : List Char) : Option (List Char × List Char × Nat) :=
  match dropLit "####".data s with
  | none => none
  | some r1 =>
    let ws1 := r1.takeWhile isPySpace
    let r2 := r1.dropWhile isPySpace
    if ws1.isEmpty then none
    else
      match dropLit "TASK-".data r2 with
      | none => none
      | some r3 =>
        let ds := r3.takeWhile Char.isDigit
        let r4 := r3.dropWhile Char.isDigit
        if ds.isEmpty then none
        else
          match r4 with
          | ':' :: r5 =>
            let run := r5.takeWhile isPySpace
            let rest := r5.dropWhile isPySpace
            if run.isEmpty then none
            else if rest.isEmpty then
              match run.getLast? with
              | some c =>
                if 2 ≤ run.length then
                  some (ds, [c], 4 + ws1.length + 5 + ds.length + 1 + run.length)
                else none
              | none => none
            else
              let chunk := lazyChunk rest
              some (ds, chunk,
                4 + ws1.length + 5 + ds.length + 1 + run.length + chunk.length)
          | _ => none

/-- `re.finditer` for the task pattern: left to right, non-overlapping,
resuming after each match end (the lookahead consumes nothing). -/
def scanTasksAux : Nat → List Char → List (List Char × List Char)
  | 0, _ => []
  | fuel + 1, s =>
    match s with
    | [] => []
    | _ :: _ =>
      match taskMatchAt s with
      | some (ds, chunk, len) => (ds, chunk) :: scanTasksAux fuel (s.drop len)
      | none => scanTasksAux fuel (s.drop 1)

def scanTasks (s : List Char) : List (List Char × List Char) :=
  scanTasksAux s.length s

/-! Labeled-field extraction (`re.search` within one task block). -/

/-- A matcher that first requires a literal label, then hands the
remainder to a continuation.  All field patterns have this shape. -/
def labelFirst (label : List Char) (k : List Char → Option α)
    (s : List Char) : Option α :=
  match dropLit label s with
  | none => none
  | some r => k r

/-- `re.search`: try the matcher at every position, leftmost match
wins; the final empty suffix is also tried, as in Python. -/
def reSearch (m : List Char → Option α) : List Char → Option α
  | [] => m []
  | c :: rest =>
    match m (c :: rest) with
    | some v => some v
    | none => reSearch m rest

/-- Continuation for `\s+(\w+)`: at least one whitespace character,
then the maximal word-character run, which must be nonempty.  The two
classes are disjoint, so greedy matching needs no backtracking. -/
def wordAfterSpace (r : List Char) : Option (List Char) :=
  let run := r.takeWhile isPySpace
  let rest := r.dropWhile isPySpace
  if run.isEmpty then none
  else
    let w := rest.takeWhile isWordChar
    if w.isEmpty then none else some w

/-- Backtracking for `\s+(.+)` when only whitespace remains after the
label: the engine gives back whitespace characters one at a time (from
the largest possible `\s+` length downward) until `.+` can start on a
non-newline character; the group is then the non-newline run from that
position.  Tries the shortest proper suffix first, which corresponds
to the greediest `\s+`. -/
def backtrackDotPlus : List Char → Option (List Char)
  | [] => none
  | _ :: rest =>
    match backtrackDotPlus rest with
    | some g => some g
    | none =>
      match rest with
      | [] => none
      | d :: _ =>
        if d = '\n' then none
        else some (rest.takeWhile fun c => c ≠ '\n')

/-- Continuation for `\s+(.+)` (no DOTALL): at least one whitespace
character, then at least one non-newline character, greedily to the
end of the line. -/
def lineAfterSpace (r : List Char) : Option (List Char) :=
  let run := r.takeWhile isPySpace
  let rest := r.dropWhile isPySpace
  if run.isEmpty then none
  else if rest.isEmpty then backtrackDotPlus run
  else some (rest.takeWhile fun c => c ≠ '\n')

/-- One repetition of `- .+\n?`: the dash-space marker, at least one
non-newline character, and an optional newline (consumed greedily).
Returns the consumed text and the remainder. -/
def dashLineM (s : List Char) : Option (List Char × List Char) :=
  match s with
  | '-' :: ' ' :: r =>
    let body := r.takeWhile fun c => c ≠ '\n'
    if body.isEmpty then none
    else
      match r.dropWhile (fun c => c ≠ '\n') with
      | '\n' :: r2 => some ('-' :: ' ' :: (body ++ ['\n']), r2)
      | r2 => some ('-' :: ' ' :: body, r2)
  | _ => none

/-- One repetition of `- \[.\] .+\n?` (checkbox list line). -/
def checkboxLineM (s : List Char) : Option (List Char × List Char) :=
  match s with
  | '-' :: ' ' :: '[' :: x :: ']' :: ' ' :: r =>
    if x = '\n' then none
    else
      let body := r.takeWhile fun c => c ≠ '\n'
      if body.isEmpty then none
      else
        match r.dropWhile (fun c => c ≠ '\n') with
        | '\n' :: r2 =>
          some ('-' :: ' ' :: '[' :: x :: ']' :: ' ' :: (body ++ ['\n']), r2)
        | r2 => some ('-' :: ' ' :: '[' :: x :: ']' :: ' ' :: body, r2)
  | _ => none

/-- The `(...)+` repetition: one or more line matches, concatenated.
Each repetition consumes at least one character, so `s.length + 1`
fuel always suffices. -/
def repeatLinesAux (m : List Char → Option (List Char × List Char)) :
    Nat → List Char → List Char → Option (List Char)
  | 0, acc, _ => if acc.isEmpty then none else some acc
  | fuel + 1, acc, s =>
    match m s with
    | some (tk, rest) => repeatLinesAux m fuel (acc ++ tk) rest
    | none => if acc.isEmpty then none else some acc

def repeatLines (m : List Char → Option (List Char × List Char))
    (s : List Char) : Option (List Char) :=
  repeatLinesAux m (s.length + 1) [] s

/-- Continuation for `\s*\n((?:<line>)+)`: the whitespace run after the
label must end in a newline (the greedy `\s*` backtracks to just
before it; any earlier newline would leave whitespace in front of the
required list marker), then the line group starts on the remainder. -/
def blockAfterLabel (m : List Char → Option (List Char × List Char))
    (r : List Char) : Option (List Char) :=
  let run := r.takeWhile isPySpace
  let rest := r.dropWhile isPySpace
  if run.getLast? = some '\n' then repeatLines m rest else none

/-- A parsed task record (the dictionary built per match). -/
structure TaskRecord where
  id : String
  title : String
  priority : String
  risk : String
  effort : String
  what : String
  why : String
  criteria : String
  dependencies : String
deriving DecidableEq

/-- Field extraction for one task block: the body of the
`for match in re.finditer(...)` loop of `parse_refactor_plan`. -/
def mkTask (taskId : String) (blk : List Char) : TaskRecord :=
  let lines := splitNl (pyStrip blk)
  let title := String.mk (pyStrip (lines.headD []))
  let priority :=
    match reSearch (labelFirst "**Priority**:".data wordAfterSpace) blk with
    | some w => pyLower (String.mk w)
    | none => "medium"
  let risk :=
    match reSearch (labelFirst "**Risk**:".data wordAfterSpace) blk with
    | some w => pyLower (String.mk w)
    | none => "medium"
  let effort :=
    match reSearch (labelFirst "**Effort**:".data lineAfterSpace) blk with
    | some l => String.mk (pyStrip l)
    | none => "TBD"
  let what :=
    match reSearch (labelFirst "**What**:".data (blockAfterLabel dashLineM)) blk with
    | some g => String.mk (pyStrip g)
    | none => ""
  let why :=
    match reSearch (labelFirst "**Why**:".data (blockAfterLabel dashLineM)) blk with
    | some g => String.mk (pyStrip g)
    | none => ""
  let criteria :=
    match reSearch
        (labelFirst "**Acceptance Criteria**:".data (blockAfterLabel checkboxLineM)) blk with
    | some g => String.mk (pyStrip g)
    | none => ""
  let dependencies :=
    match reSearch (labelFirst "**Dependencies**:".data lineAfterSpace) blk with
    | some l => String.mk (pyStrip l)
    | none => "None"
  ⟨taskId, title, priority, risk, effort, what, why, criteria, dependencies⟩

/-- `parse_refactor_plan` on already-read plan text: one task per
heading match, in document order, duplicate ids permitted. -/
def parse_refactor_plan (content : List Char) : List TaskRecord :=
  (scanTasks content).map fun p => mkTask ("TASK-" ++ String.mk p.1) p.2

/-! ## `create_refactor_issues.py`: labels, title, batch run -/

/-- `get_priority_label`: the dictionary lookup with default, written
as the equivalent decision chain over the lowercased priority. -/
def get_priority_label (priority : String) : String :=
  let p := pyLower priority
  if p = "urgent" then "priority:high"
  else if p = "high" then "priority:high"
  else if p = "medium" then "priority:medium"
  else if p = "low" then "priority:low"
  else "priority:medium"

/-- The issue title built in the main loop. -/
def issue_title (t : TaskRecord) : String :=
  "[Modernization] " ++ t.id ++ ": " ++ t.title

/-- The label list built in the main loop: base labels, then
`high-risk` appended exactly when the lowercased risk is `high`. -/
def issue_labels (t : TaskRecord) : List String :=
  ["modernization", get_priority_label t.priority] ++
  (if pyLower t.risk = "high" then ["high-risk"] else [])

/-- Outcome of one tracker-client `create_issue` call: the external
collaborator either returns an issue number or raises a tracker
error. -/
inductive CreateResult where
  | ok (issueNumber : Nat)
  | err (message : String)
deriving DecidableEq

/-- Result of one run of the issue-creation CLI. -/
structure RunOutcome where
  exitCode : Nat
  created : List (String × Nat)
  failed : List String
deriving DecidableEq

/-- The batch loop of `main`: every task is attempted in order; a
tracker error is caught, recorded in `failed_issues`, and the loop
continues; successes are recorded in `created_issues`. -/
def publishStep (create : TaskRecord → CreateResult)
    (acc : List (String × Nat) × List String) (t : TaskRecord) :
    List (String × Nat) × List String :=
  match create t with
  | .ok n => (acc.1 ++ [(t.id, n)], acc.2)
  | .err _ => (acc.1, acc.2 ++ [t.id])

def publishBatch (create : TaskRecord → CreateResult) (tasks : List TaskRecord) :
    List (String × Nat) × List String :=
  tasks.foldl (publishStep create) ([], [])

/-- `main` of `create_refactor_issues.py` with its effects explicit:
whether the plan file exists, its text, whether the tracker client
initializes (environment configuration), and the per-task outcome of
the create-issue call.  Returns the exit code and both result lists. -/
def mainRun (planExists : Bool) (planText : List Char) (apiOk : Bool)
    (create : TaskRecord → CreateResult) : RunOutcome :=
  if !planExists then ⟨1, [], []⟩
  else
    let tasks := parse_refactor_plan planText
    if tasks.isEmpty then ⟨1, [], []⟩
    else if !apiOk then ⟨1, [], []⟩
    else
      let cf := publishBatch create tasks
      ⟨if cf.2.isEmpty then 0 else 1, cf.1, cf.2⟩

/-! ## Claim-side comparison definitions and concrete inputs -/

/-- Claim-side comparator for C4: the first non-blank line of the
document after the heading line, stripped — what the claim says the
title should be (stated for a document whose first line is the heading
of its only task block). -/
def claimTitleAfterHeading (content : List Char) : Option String :=
  (((splitNl content).drop 1).find? fun l => !(pyStrip l).isEmpty).map
    fun l => String.mk (pyStrip l)

/-- Claim-side check for C8: is the list descending in the line
count? -/
def isDescByLines : List (String × Nat) → Bool
  | [] => true
  | [_] => true
  | a :: b :: t => decide (b.2 ≤ a.2) && isDescByLines (b :: t)

/-- Python `needle in hay` on `String`. -/
def strContains (needle hay : String) : Bool := containsSub needle.data hay.data

/-- A function body whose claim-side window holds eleven `if`
occurrences. -/
def exElevenIfs : List Char :=
  "def f(x):\n    if if if if if if if if if if if\n".data

/-- A function body with one `if` and one `while` in its window. -/
def exMonoBase : List Char :=
  "def g(y):\n    if a:\n        while b:\n            x = 1\n".data

/-- `exMonoBase` with one additional `if` occurrence inserted inside
the body window. -/
def exMonoPlus : List Char :=
  "def g(y):\n    if a:\n        while b:\n            if c\n".data

/-- An empty assessment (no files discovered). -/
def emptyResults : Results :=
  { total_files := 0, total_lines := 0, languages := [], large_files := []
    complex_functions := [], todos := [], test_files := 0, framework := "Unknown" }

/-- Eleven large-file entries, so the displayed list is truncated. -/
def exElevenLarge : List (String × Nat) :=
  [("a", 502), ("b", 503), ("c", 504), ("d", 505), ("e", 506), ("f", 507),
   ("g", 508), ("h", 509), ("i", 600), ("j", 700), ("k", 800)]

/-- Twenty-one TODO entries, so the displayed list is truncated. -/
def exTodos21 : List String := (List.range 21).map fun i => "t" ++ toString i

/-- A Python source file of `n` lines (every line empty). -/
def pyFileOfLines (p : String) (n : Nat) : SrcFile :=
  ⟨p, p, List.replicate n '\n'⟩

/-- Files with line counts 520, 900, 501 in encounter order. -/
def exWalk520 : List SrcFile :=
  [pyFileOfLines "a.py" 520, pyFileOfLines "b.py" 900, pyFileOfLines "c.py" 501]

/-- A plan whose only heading carries inline text, followed by a
non-blank body line. -/
def exHeadingDoc : List Char :=
  "#### TASK-001: Heading Title\nBody first line\nMore text\n".data

/-- A plan with three tasks. -/
def exPlan3 : List Char :=
  "#### TASK-001: First task\n#### TASK-002: Second task\n#### TASK-003: Third task\n".data

/-- A tracker client that fails exactly on the second task. -/
def exCreateFailSecond : TaskRecord → CreateResult := fun t =>
  if t.id = "TASK-002" then CreateResult.err "boom" else CreateResult.ok 7

/-- A task block with a priority label but no risk label. -/
def exNoRiskBlk : List Char := "Some title\n**Priority**: High\n".data

/-- A task record with urgent priority and high risk. -/
def exUrgentTask : TaskRecord :=
  ⟨"TASK-042", "Do the work", "urgent", "high", "TBD", "", "", "", "None"⟩

/-! ## Claim theorems -/

/-- C1 (code bug): `detect_complexity` never reports any function.  The
slice `content[match.start():]` starts with the `def` of the match
itself, so `split('def', 1)[0]` is always the empty string and every
score is 0.  On a function whose body window (as the claim defines it)
holds eleven `if` occurrences — score 11 > 10, so the claim says it is
reported — the code reports nothing. -/
theorem C1_complexity_window_empty :
    detect_complexity exElevenIfs = [] ∧
    scanDefs exElevenIfs = [("f", 0)] ∧
    funcComplexity exElevenIfs 0 = 0 ∧
    detect_complexity_claim exElevenIfs = [("f", 11)] := by
  refine ⟨by decide, by decide, by decide, by decide⟩

/-- C7 (code bug): inserting one more occurrence of a scored keyword
inside the body window leaves the computed score unchanged at 0, not
increased by one.  `exMonoPlus` is `exMonoBase` with one extra `if` in
the body window; the window the claim describes scores 2 and 3 (the
expected strict increase by one), while the code scores 0 both
times. -/
theorem C7_score_not_monotonic :
    scanDefs exMonoBase = [("g", 0)] ∧
    scanDefs exMonoPlus = [("g", 0)] ∧
    funcComplexity exMonoBase 0 = 0 ∧
    funcComplexity exMonoPlus 0 = 0 ∧
    claimScore exMonoBase 0 = 2 ∧
    claimScore exMonoPlus 0 = 3 := by
  refine ⟨by decide, by decide, by decide, by decide, by decide, by decide⟩

/-- C2 (counterexample): the rendered report is not a function of the
`AssessmentReport` alone.  Rendering the same results twice with
different clock readings gives different strings, and rendering them
with different top-level directory listings (the renderer walks the
filesystem) also gives different strings. -/
theorem C2_render_depends_on_clock_and_fs :
    generate_assessment_report "2024-05-01 12:00:00" [] emptyResults ≠
      generate_assessment_report "2024-05-01 12:00:01" [] emptyResults ∧
    generate_assessment_report "2024-05-01 12:00:00" [] emptyResults ≠
      generate_assessment_report "2024-05-01 12:00:00" [("src", true)] emptyResults := by
  refine ⟨by decide, by decide⟩

/-- C2 (amended): rendering is deterministic in the full input triple:
the report value together with the rendering timestamp and the
top-level directory listing, which the renderer reads from the clock
and the filesystem.  Equal triples render to byte-identical output. -/
theorem C2_render_deterministic_in_inputs (now : String)
    (dirEntries : List (String × Bool)) (r1 r2 : Results) (h : r1 = r2) :
    generate_assessment_report now dirEntries r1 =
      generate_assessment_report now dirEntries r2 := by
  rw [h]

theorem C2_render_deterministic_in_inputs_witness :
    generate_assessment_report "2024-05-01 12:00:00" [] emptyResults =
      generate_assessment_report "2024-05-01 12:00:00" [] emptyResults :=
  C2_render_deterministic_in_inputs "2024-05-01 12:00:00" [] emptyResults emptyResults rfl

/-- C10: complexity findings come only from the Python file loop; every
entry of `complex_functions` carries the relative path of a discovered
Python file, and the JS/TS file list has no influence on the field. -/
theorem C10_complex_functions_python_only (pyFiles jsFiles : List SrcFile)
    (hM hA hW hP : Bool) (deps : Option (List String)) (tf : Nat) :
    ((analyze_codebase pyFiles jsFiles hM hA hW hP deps tf).complex_functions.all
      fun e => (pyFiles.map SrcFile.relPath).contains e.1) = true ∧
    (analyze_codebase pyFiles jsFiles hM hA hW hP deps tf).complex_functions =
      (analyze_codebase pyFiles [] hM hA hW hP deps tf).complex_functions := by
  constructor
  · rw [List.all_eq_true]
    intro e he
    simp only [analyze_codebase] at he
    rw [List.mem_flatMap] at he
    obtain ⟨f, hf, hm⟩ := he
    rw [List.mem_map] at hm
    obtain ⟨nc, _, rfl⟩ := hm
    exact List.elem_iff.mpr (List.mem_map_of_mem SrcFile.relPath hf)
  · rfl

/-- C9: for every task record whose risk lies in the documented domain,
the derived labels are exactly the base pair plus `high-risk` iff the
risk is `high`; the priority-label mapping is total with the documented
values and default; and the issue title is the documented
concatenation. -/
theorem C9_issue_spec (t : TaskRecord)
    (h : t.risk = "high" ∨ t.risk = "medium" ∨ t.risk = "low") :
    issue_labels t =
      ["modernization", get_priority_label t.priority] ++
        (if t.risk = "high" then ["high-risk"] else []) ∧
    ("high-risk" ∈ issue_labels t ↔ t.risk = "high") ∧
    issue_title t = "[Modernization] " ++ t.id ++ ": " ++ t.title ∧
    get_priority_label "urgent" = "priority:high" ∧
    get_priority_label "high" = "priority:high" ∧
    get_priority_label "medium" = "priority:medium" ∧
    get_priority_label "low" = "priority:low" ∧
    get_priority_label "" = "priority:medium" ∧
    get_priority_label "unknown" = "priority:medium" ∧
    ∀ p : String, get_priority_label p = "priority:high" ∨
      get_priority_label p = "priority:medium" ∨
      get_priority_label p = "priority:low" := by
  have tot : ∀ p : String, get_priority_label p = "priority:high" ∨
      get_priority_label p = "priority:medium" ∨
      get_priority_label p = "priority:low" := by
    intro p
    unfold get_priority_label
    dsimp only
    split_ifs
    · exact Or.inl rfl
    · exact Or.inl rfl
    · exact Or.inr (Or.inl rfl)
    · exact Or.inr (Or.inr rfl)
    · exact Or.inr (Or.inl rfl)
  have hb : issue_labels t =
      ["modernization", get_priority_label t.priority] ++
        (if t.risk = "high" then ["high-risk"] else []) := by
    unfold issue_labels
    rcases h with h | h | h <;> rw [h]
    · rw [if_pos (show pyLower "high" = "high" from by decide), if_pos rfl]
    · rw [if_neg (show ¬ pyLower "medium" = "high" from by decide),
        if_neg (show ¬ ("medium" : String) = "high" from by decide)]
    · rw [if_neg (show ¬ pyLower "low" = "high" from by decide),
        if_neg (show ¬ ("low" : String) = "high" from by decide)]
  have hm : ("high-risk" ∈ issue_labels t ↔ t.risk = "high") := by
    rw [hb]
    rcases h with h | h | h <;> rw [h] <;>
      rcases tot t.priority with hp | hp | hp <;> rw [hp] <;> decide
  exact ⟨hb, hm, rfl, by decide, by decide, by decide, by decide, by decide,
    by decide, tot⟩

theorem C9_issue_spec_witness :
    issue_labels exUrgentTask = ["modernization", "priority:high", "high-risk"] ∧
    ("high-risk" ∈ issue_labels exUrgentTask ↔ exUrgentTask.risk = "high") ∧
    issue_title exUrgentTask = "[Modernization] TASK-042: Do the work" := by
  have h := C9_issue_spec exUrgentTask (Or.inl rfl)
  refine ⟨?_, h.2.1, by decide⟩
  rw [h.1]
  decide

/-! ## Lemmas about label search -/

theorem dropLit_eq_none {lit s : List Char} (h : lit.isPrefixOf s = false) :
    dropLit lit s = none := by
  induction lit generalizing s with
  | nil => simp [List.isPrefixOf] at h
  | cons a l ih =>
    cases s with
    | nil => rfl
    | cons b r =>
      rw [List.isPrefixOf] at h
      rw [Bool.and_eq_false_iff] at h
      unfold dropLit
      by_cases hab : a = b
      · rw [if_pos hab]
        rcases h with h | h
        · rw [beq_eq_false_iff_ne] at h
          exact absurd hab h
        · exact ih h
      · rw [if_neg hab]

theorem reSearch_labelFirst_none {α : Type} {lbl : List Char}
    {k : List Char → Option α} {s : List Char}
    (h : containsSub lbl s = false) : reSearch (labelFirst lbl k) s = none := by
  induction s with
  | nil =>
    rw [containsSub] at h
    unfold reSearch labelFirst
    cases lbl with
    | nil => simp [List.isEmpty] at h
    | cons a l => rfl
  | cons c rest ih =>
    rw [containsSub, Bool.or_eq_false_iff] at h
    unfold reSearch labelFirst
    rw [dropLit_eq_none h.1]
    exact ih h.2

/-- C5: every labeled field degrades independently to its documented
default when its label is absent from the block, while the rest of the
record is still built; in particular a block with no `**Risk**:` label
parses with risk `medium`. -/
theorem C5_field_defaults (taskId : String) (blk : List Char) :
    (containsSub "**Priority**:".data blk = false →
      (mkTask taskId blk).priority = "medium") ∧
    (containsSub "**Risk**:".data blk = false →
      (mkTask taskId blk).risk = "medium") ∧
    (containsSub "**Effort**:".data blk = false →
      (mkTask taskId blk).effort = "TBD") ∧
    (containsSub "**What**:".data blk = false →
      (mkTask taskId blk).what = "") ∧
    (containsSub "**Why**:".data blk = false →
      (mkTask taskId blk).why = "") ∧
    (containsSub "**Acceptance Criteria**:".data blk = false →
      (mkTask taskId blk).criteria = "") ∧
    (containsSub "**Dependencies**:".data blk = false →
      (mkTask taskId blk).dependencies = "None") ∧
    (mkTask taskId blk).id = taskId := by
  refine ⟨?_, ?_, ?_, ?_, ?_, ?_, ?_, rfl⟩ <;>
    intro h <;> simp [mkTask, reSearch_labelFirst_none h]

theorem C5_field_defaults_witness :
    (mkTask "TASK-007" exNoRiskBlk).risk = "medium" ∧
    (mkTask "TASK-007" exNoRiskBlk).what = "" ∧
    (mkTask "TASK-007" exNoRiskBlk).dependencies = "None" ∧
    (mkTask "TASK-007" exNoRiskBlk).priority = "high" ∧
    (mkTask "TASK-007" exNoRiskBlk).title = "Some title" := by
  have h := C5_field_defaults "TASK-007" exNoRiskBlk
  exact ⟨h.2.1 (by decide), h.2.2.2.1 (by decide), h.2.2.2.2.2.2.1 (by decide),
    by decide, by decide⟩

/-! ## Lemmas about the publish batch -/

/-- The successes of one create attempt, as a `filterMap` step. -/
def createdOf (create : TaskRecord → CreateResult) (t : TaskRecord) :
    Option (String × Nat) :=
  match create t with
  | .ok n => some (t.id, n)
  | .err _ => none

/-- The failure of one create attempt, as a `filterMap` step. -/
def failedOf (create : TaskRecord → CreateResult) (t : TaskRecord) :
    Option String :=
  match create t with
  | .ok _ => none
  | .err _ => some t.id

theorem publishBatch_foldl (create : TaskRecord → CreateResult)
    (tasks : List TaskRecord) (acc : List (String × Nat) × List String) :
    tasks.foldl (publishStep create) acc =
      (acc.1 ++ tasks.filterMap (createdOf create),
       acc.2 ++ tasks.filterMap (failedOf create)) := by
  induction tasks generalizing acc with
  | nil => simp
  | cons t ts ih =>
    rw [List.foldl_cons, ih]
    cases hc : create t with
    | ok n => simp [publishStep, createdOf, failedOf, hc]
    | err m => simp [publishStep, createdOf, failedOf, hc]

theorem publishBatch_eq (create : TaskRecord → CreateResult)
    (tasks : List TaskRecord) :
    publishBatch create tasks =
      (tasks.filterMap (createdOf create), tasks.filterMap (failedOf create)) := by
  unfold publishBatch
  rw [publishBatch_foldl]
  simp

/-- C6: the batch tolerates per-item failures: every record is
attempted in parsed order, the successes are exactly the records whose
create call succeeded (in order, with their issue numbers) and the
failures are exactly the ids whose create call raised, and — when the
tracker client initializes — the run exits non-zero exactly when the
plan file is missing, parsing yields no task, or some publish attempt
failed. -/
theorem C6_batch_partial_failure (planExists : Bool) (planText : List Char)
    (create : TaskRecord → CreateResult) :
    ((mainRun planExists planText true create).exitCode ≠ 0 ↔
      (planExists = false ∨ parse_refactor_plan planText = [] ∨
        ((parse_refactor_plan planText).any fun t =>
          match create t with
          | .ok _ => false
          | .err _ => true) = true)) ∧
    (planExists = true → parse_refactor_plan planText ≠ [] →
      (mainRun planExists planText true create).created =
        (parse_refactor_plan planText).filterMap (createdOf create) ∧
      (mainRun planExists planText true create).failed =
        (parse_refactor_plan planText).filterMap (failedOf create)) := by
  cases planExists with
  | false =>
    constructor
    · simp [mainRun]
    · intro h
      exact absurd h (by simp)
  | true =>
    by_cases ht : parse_refactor_plan planText = []
    · constructor
      · simp [mainRun, ht]
      · intro _ hne
        exact absurd ht hne
    · have hout : mainRun true planText true create =
          ⟨if ((parse_refactor_plan planText).filterMap (failedOf create)).isEmpty
              then 0 else 1,
            (parse_refactor_plan planText).filterMap (createdOf create),
            (parse_refactor_plan planText).filterMap (failedOf create)⟩ := by
        simp [mainRun, ht, publishBatch_eq]
      constructor
      · rw [hout]
        simp only [ne_eq]
        constructor
        · intro hne
          refine Or.inr (Or.inr ?_)
          rw [List.any_eq_true]
          by_cases hf : ((parse_refactor_plan planText).filterMap (failedOf create)) = []
          · exact absurd (by simp [hf]) hne
          · obtain ⟨x, hx⟩ := List.exists_mem_of_ne_nil _ hf
            rw [List.mem_filterMap] at hx
            obtain ⟨t, htm, hfo⟩ := hx
            refine ⟨t, htm, ?_⟩
            unfold failedOf at hfo
            cases hc : create t with
            | ok n => rw [hc] at hfo; simp at hfo
            | err m => simp
        · intro hor
          rcases hor with h | h | h
          · exact absurd h (by decide)
          · exact absurd h ht
          · rw [List.any_eq_true] at h
            obtain ⟨t, htm, hp⟩ := h
            have hmem : t.id ∈ (parse_refactor_plan planText).filterMap (failedOf create) := by
              rw [List.mem_filterMap]
              refine ⟨t, htm, ?_⟩
              unfold failedOf
              cases hc : create t with
              | ok n => rw [hc] at hp; simp at hp
              | err m => rfl
            have hne : ((parse_refactor_plan planText).filterMap (failedOf create)) ≠ [] := by
              intro hnil
              rw [hnil] at hmem
              exact absurd hmem (List.not_mem_nil _)
            simp [List.isEmpty_iff, hne]
      · intro _ _
        rw [hout]
        exact ⟨rfl, rfl⟩

theorem C6_batch_partial_failure_witness :
    (mainRun true exPlan3 true exCreateFailSecond).exitCode = 1 ∧
    (mainRun true exPlan3 true exCreateFailSecond).created =
      [("TASK-001", 7), ("TASK-003", 7)] ∧
    (mainRun true exPlan3 true exCreateFailSecond).failed = ["TASK-002"] := by
  have h := C6_batch_partial_failure true exPlan3 exCreateFailSecond
  have h2 := h.2 rfl (by decide)
  refine ⟨?_, ?_, ?_⟩
  · have : (mainRun true exPlan3 true exCreateFailSecond).exitCode ≠ 0 :=
      h.1.mpr (Or.inr (Or.inr (by decide)))
    revert this
    decide
  · rw [h2.1]
    decide
  · rw [h2.2]
    decide

/-! ## Lemmas about the stable descending sort -/

theorem filter_orderedInsert_lines (k : Nat) (x : String × Nat)
    (l : List (String × Nat)) :
    (List.orderedInsert (fun a b => b.2 ≤ a.2) x l).filter (fun y => y.2 == k) =
      if x.2 == k then x :: l.filter (fun y => y.2 == k)
      else l.filter (fun y => y.2 == k) := by
  induction l with
  | nil =>
    by_cases hx : x.2 == k <;> simp [List.orderedInsert, List.filter, hx]
  | cons y ys ih =>
    rw [List.orderedInsert]
    by_cases hr : y.2 ≤ x.2
    · rw [if_pos hr, List.filter_cons]
    · rw [if_neg hr, List.filter_cons, ih]
      have hxy : x.2 < y.2 := Nat.lt_of_not_le hr
      by_cases hy : y.2 = k
      · have hx : ¬ x.2 = k := by omega
        simp [List.filter_cons, hy, hx]
      · by_cases hx : x.2 = k <;> simp [List.filter_cons, hy, hx]

theorem sortByLinesDesc_stable (l : List (String × Nat)) (k : Nat) :
    (sortByLinesDesc l).filter (fun y => y.2 == k) =
      l.filter (fun y => y.2 == k) := by
  unfold sortByLinesDesc
  induction l with
  | nil => rfl
  | cons x xs ih =>
    rw [List.insertionSort, filter_orderedInsert_lines, ih, List.filter_cons]

/-- C8 (counterexample): the aggregate built by `analyze_codebase`
keeps `large_files` in encounter order, so for counts [520, 900, 501]
the field itself is not descending. -/
theorem C8_aggregate_keeps_encounter_order :
    (analyze_codebase exWalk520 [] false false false false none 0).large_files =
      [("a.py", 520), ("b.py", 900), ("c.py", 501)] ∧
    isDescByLines
      (analyze_codebase exWalk520 [] false false false false none 0).large_files
      = false := by
  refine ⟨by decide, by decide⟩

/-- C8 (amended): the descending order lives in the renderer: the sort
it applies to `large_files` is a permutation, is descending by line
count, is stable (entries with equal line count keep their encounter
order), and sends counts [520, 900, 501] to [900, 520, 501]. -/
theorem C8_renderer_sort_desc_stable :
    (∀ l : List (String × Nat), (sortByLinesDesc l).Perm l) ∧
    (∀ l : List (String × Nat),
      (sortByLinesDesc l).Sorted fun a b => b.2 ≤ a.2) ∧
    (∀ (l : List (String × Nat)) (k : Nat),
      (sortByLinesDesc l).filter (fun y => y.2 == k) =
        l.filter (fun y => y.2 == k)) ∧
    sortByLinesDesc [("a.py", 520), ("b.py", 900), ("c.py", 501)] =
      [("b.py", 900), ("a.py", 520), ("c.py", 501)] := by
  refine ⟨fun l => List.perm_insertionSort _ l, fun l => ?_,
    fun l k => sortByLinesDesc_stable l k, by decide⟩
  haveI h1 : IsTotal (String × Nat) (fun a b => b.2 ≤ a.2) :=
    ⟨fun a b => Nat.le_total b.2 a.2⟩
  haveI h2 : IsTrans (String × Nat) (fun a b => b.2 ≤ a.2) :=
    ⟨fun a b c hab hbc => Nat.le_trans hbc hab⟩
  exact List.sorted_insertionSort _ l

/-! ## Lemmas about substring containment -/

theorem containsSub_head (n t : List Char) : containsSub n (n ++ t) = true := by
  cases n with
  | nil =>
    cases t with
    | nil => rfl
    | cons c r => simp [containsSub, List.isPrefixOf]
  | cons a l =>
    rw [List.cons_append, containsSub, Bool.or_eq_true]
    exact Or.inl (List.isPrefixOf_iff_prefix.mpr (List.prefix_append _ _))

theorem containsSub_append_left (a : List Char) {n h : List Char}
    (hc : containsSub n h = true) : containsSub n (a ++ h) = true := by
  induction a with
  | nil => exact hc
  | cons c cs ih => simp [containsSub, ih]

theorem strContains_head (pat b : String) : strContains pat (pat ++ b) = true := by
  unfold strContains
  rw [String.data_append]
  exact containsSub_head _ _

theorem strContains_append_middle (a pat b : String) :
    strContains pat (a ++ (pat ++ b)) = true := by
  unfold strContains
  rw [String.data_append, String.data_append]
  exact containsSub_append_left a.data (containsSub_head _ _)

/-- C3 (counterexample): with eleven large files the section displays
only ten items, appends no notice containing `more`, and its section
text nowhere shows the full count 11 (the full count appears in the
executive summary instead). -/
theorem C3_large_files_truncated_without_notice :
    exElevenLarge.length = 11 ∧
    (largeItems exElevenLarge).length = 10 ∧
    strContains "more" (largeFilesBlock exElevenLarge) = false ∧
    strContains "11" (largeFilesBlock exElevenLarge) = false := by
  refine ⟨by decide, by decide, by decide, by decide⟩

/-- C3 (amended): the large-file and complex-function sections display
at most the top 10 items, with no truncation notice and full counts
only in the executive summary; the TODO section displays all entries
when there are at most 20, and otherwise displays the first 10
followed by a `... and N more` line with N the total minus 10, while
its header carries the full count. -/
theorem C3_display_caps :
    (∀ lf : List (String × Nat), (largeItems lf).length = min 10 lf.length) ∧
    (∀ cf : List (String × String × Nat),
      (complexItems cf).length = min 10 cf.length) ∧
    (∀ todos : List String, todos.length ≤ 20 → displayedTodos todos = todos) ∧
    (∀ todos : List String, 20 < todos.length →
      displayedTodos todos = todos.take 10 ∧
      strContains (todoMoreLine (todos.length - 10)) (todosBlock todos) = true ∧
      strContains ("**TODO/FIXME Comments: " ++ toString todos.length ++ "**")
        (todosBlock todos) = true) := by
  refine ⟨?_, ?_, ?_, ?_⟩
  · intro lf
    simp [largeItems, sortByLinesDesc, List.length_insertionSort]
  · intro cf
    simp [complexItems, sortByScoreDesc, List.length_insertionSort]
  · intro todos h
    rw [displayedTodos, if_pos h]
    exact List.take_of_length_le h
  · intro todos h
    have hne : todos ≠ [] := by
      intro he
      rw [he] at h
      exact absurd h (by decide)
    have hlen : ¬ todos.length ≤ 20 := Nat.not_le.mpr h
    have hblock : todosBlock todos =
        "**TODO/FIXME Comments: " ++ toString todos.length ++ "**\n\n" ++
          (todoItemLines (todos.take 10) ++ todoMoreLine (todos.length - 10)) ++
          "\n**Action**: Convert TODOs to GitHub Issues\n\n" := by
      rw [todosBlock, if_neg (by simp [hne]), if_neg hlen]
    refine ⟨by rw [displayedTodos, if_neg hlen], ?_, ?_⟩
    · rw [hblock]
      rw [show ("**TODO/FIXME Comments: " ++ toString todos.length ++ "**\n\n" ++
            (todoItemLines (todos.take 10) ++ todoMoreLine (todos.length - 10)) ++
            "\n**Action**: Convert TODOs to GitHub Issues\n\n" : String) =
          ("**TODO/FIXME Comments: " ++ toString todos.length ++ "**\n\n" ++
            todoItemLines (todos.take 10)) ++
          (todoMoreLine (todos.length - 10) ++
            "\n**Action**: Convert TODOs to GitHub Issues\n\n") from by
        simp [String.append_assoc]]
      exact strContains_append_middle _ _ _
    · rw [hblock]
      rw [show ("**TODO/FIXME Comments: " ++ toString todos.length ++ "**\n\n" ++
            (todoItemLines (todos.take 10) ++ todoMoreLine (todos.length - 10)) ++
            "\n**Action**: Convert TODOs to GitHub Issues\n\n" : String) =
          ("**TODO/FIXME Comments: " ++ toString todos.length ++ "**") ++
          ("\n\n" ++
            ((todoItemLines (todos.take 10) ++ todoMoreLine (todos.length - 10)) ++
              "\n**Action**: Convert TODOs to GitHub Issues\n\n")) from by
        simp only [String.append_assoc]
        rfl]
      exact strContains_head _ _

theorem C3_display_caps_witness :
    displayedTodos exTodos21 = exTodos21.take 10 ∧
    strContains (todoMoreLine 11) (todosBlock exTodos21) = true ∧
    (largeItems exElevenLarge).length = min 10 exElevenLarge.length := by
  have h := C3_display_caps
  have h4 := h.2.2.2 exTodos21 (by decide)
  refine ⟨h4.1, ?_, h.1 exElevenLarge⟩
  have e : exTodos21.length - 10 = 11 := by decide
  have hm := h4.2.1
  rw [e] at hm
  exact hm

/-! ## C4: where the parsed title comes from -/

/-- C4 (counterexample): the parsed title is the remainder of the
heading line itself, not the first non-blank line after it. -/
theorem C4_title_from_heading_line :
    (parse_refactor_plan exHeadingDoc).map TaskRecord.title = ["Heading Title"] ∧
    claimTitleAfterHeading exHeadingDoc = some "Body first line" ∧
    ("Heading Title" : String) ≠ "Body first line" := by
  refine ⟨by decide, by decide, by decide⟩

theorem containsSub_false_tail {n : List Char} {c : Char} {rest : List Char}
    (h : containsSub n (c :: rest) = false) :
    n.isPrefixOf (c :: rest) = false ∧ containsSub n rest = false := by
  rw [containsSub, Bool.or_eq_false_iff] at h
  exact h

theorem lazyGo_append (t2 rest : List Char) (hrest : rest ≠ []) :
    containsSub "####".data (t2 ++ rest) = false →
      lazyGo (t2 ++ rest) = t2 ++ lazyGo rest := by
  induction t2 with
  | nil => intro _; rfl
  | cons d t ih =>
    intro h
    rw [List.cons_append] at h
    obtain ⟨h1, h2⟩ := containsSub_false_tail h
    have hne2 : ¬ (d :: (t ++ rest) = ['\n']) := by
      intro he
      rw [List.cons.injEq] at he
      exact hrest (List.append_eq_nil.mp he.2).2
    have hstop : hashStop (d :: (t ++ rest)) = false := by
      simp [hashStop, h1, hne2]
    rw [List.cons_append, lazyGo, hstop]
    simp [ih h2]

theorem lazyGo_no_hash (b : List Char) (h : containsSub "####".data b = false) :
    lazyGo b = if b.getLast? = some '\n' then b.dropLast else b := by
  induction b with
  | nil => simp [lazyGo]
  | cons d t ih =>
    obtain ⟨h1, h2⟩ := containsSub_false_tail h
    cases t with
    | nil =>
      by_cases hd : d = '\n'
      · subst hd
        simp [lazyGo, hashStop]
      · simp [lazyGo, hashStop, h1, hd]
    | cons e t2 =>
      have hstop : hashStop (d :: e :: t2) = false := by
        simp [hashStop, h1]
      rw [lazyGo, hstop]
      simp only [Bool.false_eq_true, if_false]
      rw [ih h2, List.getLast?_cons_cons]
      by_cases hg : (e :: t2).getLast? = some '\n' <;>
        simp [hg, List.dropLast_cons₂]

theorem dropWhile_append_keep (x y : List Char)
    (hx : ∃ d ∈ x, isPySpace d = false) :
    (x ++ y).dropWhile isPySpace = x.dropWhile isPySpace ++ y := by
  induction x with
  | nil =>
    obtain ⟨d, hd, _⟩ := hx
    exact absurd hd (List.not_mem_nil d)
  | cons c cs ih =>
    by_cases hc : isPySpace c = true
    · have hx2 : ∃ d ∈ cs, isPySpace d = false := by
        obtain ⟨d, hd, hdf⟩ := hx
        rcases List.mem_cons.mp hd with rfl | hd2
        · rw [hc] at hdf
          exact absurd hdf (by decide)
        · exact ⟨d, hd2, hdf⟩
      simp [List.dropWhile_cons, hc, ih hx2]
    · simp [List.dropWhile_cons, hc]

theorem pyStrip_structure (c : Char) (t2 v : List Char)
    (hc : isPySpace c = false) (hv : ∃ d ∈ v, isPySpace d = false) :
    pyStrip ((c :: t2) ++ v) = (c :: t2) ++ stripEnd v := by
  unfold pyStrip stripEnd
  rw [List.cons_append, List.dropWhile_cons_of_neg (by simp [hc])]
  rw [List.reverse_cons, List.reverse_append, List.append_assoc]
  rw [dropWhile_append_keep v.reverse (t2.reverse ++ [c])
    (by obtain ⟨d, hd, hdf⟩ := hv; exact ⟨d, List.mem_reverse.mpr hd, hdf⟩)]
  rw [List.reverse_append, List.reverse_append]
  simp

theorem stripEnd_cons_keep (a : Char) (v : List Char)
    (hv : ∃ d ∈ v, isPySpace d = false) :
    stripEnd (a :: v) = a :: stripEnd v := by
  unfold stripEnd
  rw [List.reverse_cons]
  rw [dropWhile_append_keep v.reverse [a]
    (by obtain ⟨d, hd, hdf⟩ := hv; exact ⟨d, List.mem_reverse.mpr hd, hdf⟩)]
  rw [List.reverse_append]
  simp

theorem splitNl_append_nl (u w : List Char) (hu : '\n' ∉ u) :
    splitNl (u ++ '\n' :: w) = u :: splitNl w := by
  induction u with
  | nil => simp [splitNl]
  | cons d u2 ih =>
    have hd : ¬ d = '\n' := fun he => hu (he ▸ List.mem_cons_self d u2)
    have ih2 := ih fun hm => hu (List.mem_cons_of_mem _ hm)
    rw [List.cons_append, splitNl]
    simp [hd, ih2]

theorem taskMatchAt_heading (c : Char) (t2 b : List Char)
    (hc : isPySpace c = false)
    (hhash : containsSub "####".data ((c :: t2) ++ '\n' :: b) = false)
    (hb : b ≠ []) :
    taskMatchAt ("#### TASK-001: ".data ++ ((c :: t2) ++ '\n' :: b)) =
      some (['0', '0', '1'],
        (c :: t2) ++ '\n' :: lazyGo b,
        15 + ((c :: t2) ++ '\n' :: lazyGo b).length) := by
  have h2 := (containsSub_false_tail hhash).2
  have hdata : "#### TASK-001: ".data =
      ['#', '#', '#', '#', ' ', 'T', 'A', 'S', 'K', '-', '0', '0', '1', ':', ' '] := rfl
  rw [hdata]
  simp only [List.cons_append]
  simp [taskMatchAt, dropLit, List.takeWhile_cons, List.dropWhile_cons, hc,
    show isPySpace ' ' = true from rfl, show isPySpace 'T' = false from rfl,
    show isPySpace 'A' = false from rfl, show isPySpace 'S' = false from rfl,
    show isPySpace 'K' = false from rfl, show isPySpace '-' = false from rfl,
    show isPySpace '0' = false from rfl, show isPySpace '1' = false from rfl,
    show isPySpace ':' = false from rfl]
  have hgo : lazyGo (t2 ++ '\n' :: b) = t2 ++ '\n' :: lazyGo b := by
    rw [lazyGo_append t2 ('\n' :: b) (by simp) h2]
    congr 1
    rw [lazyGo]
    have hstop : hashStop ('\n' :: b) = false := by
      simp [hashStop, List.isPrefixOf, hb]
    rw [hstop]
    simp
  constructor
  · show lazyChunk (c :: (t2 ++ '\n' :: b)) = _
    rw [lazyChunk, hgo]
  · rw [lazyChunk, hgo]
    simp [List.length_append]

theorem containsSub_false_append {n x y : List Char}
    (h : containsSub n (x ++ y) = false) : containsSub n y = false := by
  induction x with
  | nil => exact h
  | cons d t ih =>
    rw [List.cons_append] at h
    exact ih (containsSub_false_tail h).2

theorem scanTasksAux_succ_cons (fuel : Nat) (x : Char) (xs : List Char) :
    scanTasksAux (fuel + 1) (x :: xs) =
      match taskMatchAt (x :: xs) with
      | some (ds, chunk, len) => (ds, chunk) :: scanTasksAux fuel ((x :: xs).drop len)
      | none => scanTasksAux fuel ((x :: xs).drop 1) := rfl

theorem scanTasks_heading (c : Char) (t2 b : List Char)
    (hc : isPySpace c = false)
    (hhash : containsSub "####".data ((c :: t2) ++ '\n' :: b) = false)
    (hb : b ≠ []) :
    (scanTasks ("#### TASK-001: ".data ++ ((c :: t2) ++ '\n' :: b))).head? =
      some (['0', '0', '1'], (c :: t2) ++ '\n' :: lazyGo b) := by
  have ht := taskMatchAt_heading c t2 b hc hhash hb
  unfold scanTasks
  have hdata : "#### TASK-001: ".data =
      ['#', '#', '#', '#', ' ', 'T', 'A', 'S', 'K', '-', '0', '0', '1', ':', ' '] := rfl
  rw [hdata] at ht ⊢
  simp only [List.cons_append] at ht ⊢
  rw [List.length_cons, scanTasksAux_succ_cons, ht]
  rfl

/-- C4 (amended): the matched block begins with the remainder of the
heading line itself, so for any heading `#### TASK-001: <text>` whose
inline text starts with a non-whitespace character, contains no
newline, and whose document carries no stray `####`, the parsed title
is the stripped inline heading text — not the first non-blank line
after the heading. -/
theorem C4_parsed_title_is_heading_remainder (c : Char) (t2 b : List Char)
    (hc : isPySpace c = false) (hnl : '\n' ∉ c :: t2)
    (hhash : containsSub "####".data ((c :: t2) ++ '\n' :: b) = false)
    (hb : ∃ d ∈ b, isPySpace d = false) :
    ((parse_refactor_plan
        ("#### TASK-001: ".data ++ ((c :: t2) ++ '\n' :: b))).map
      fun t => (t.id, t.title)).head? =
      some ("TASK-001", String.mk (pyStrip (c :: t2))) := by
  have hbne : b ≠ [] := by
    rintro rfl
    obtain ⟨d, hd, _⟩ := hb
    exact List.not_mem_nil d hd
  have hhb : containsSub "####".data b = false := by
    refine containsSub_false_append (x := (c :: t2) ++ ['\n']) ?_
    rw [List.append_assoc]
    exact hhash
  have hw : ∃ d ∈ lazyGo b, isPySpace d = false := by
    rw [lazyGo_no_hash b hhb]
    obtain ⟨d, hd, hdf⟩ := hb
    by_cases hg : b.getLast? = some '\n'
    · rw [if_pos hg]
      refine ⟨d, ?_, hdf⟩
      have hdn : d ≠ '\n' := by
        intro he
        rw [he] at hdf
        exact absurd hdf (by decide)
      have hsplit := List.dropLast_append_getLast hbne
      rw [← hsplit] at hd
      rcases List.mem_append.mp hd with h1 | h1
      · exact h1
      · rw [List.mem_singleton] at h1
        rw [List.getLast?_eq_getLast b hbne] at hg
        rw [Option.some.injEq] at hg
        rw [hg] at h1
        exact absurd h1 hdn
    · rw [if_neg hg]
      exact ⟨d, hd, hdf⟩
  unfold parse_refactor_plan
  rw [List.head?_map, List.head?_map, scanTasks_heading c t2 b hc hhash hbne]
  simp only [Option.map_some']
  have hid : ("TASK-" ++ String.mk ['0', '0', '1'] : String) = "TASK-001" := rfl
  have htitle :
      (mkTask ("TASK-" ++ String.mk ['0', '0', '1'])
        ((c :: t2) ++ '\n' :: lazyGo b)).title = String.mk (pyStrip (c :: t2)) := by
    simp only [mkTask]
    rw [pyStrip_structure c t2 ('\n' :: lazyGo b) hc
      (by obtain ⟨d, hd, hdf⟩ := hw; exact ⟨d, List.mem_cons_of_mem _ hd, hdf⟩)]
    rw [stripEnd_cons_keep '\n' (lazyGo b) hw]
    rw [splitNl_append_nl (c :: t2) (stripEnd (lazyGo b)) hnl]
    rfl
  rw [Option.some.injEq, Prod.mk.injEq]
  constructor
  · show (mkTask ("TASK-" ++ String.mk ['0', '0', '1']) _).id = _
    simp only [mkTask]
    exact hid
  · exact htitle

theorem C4_parsed_title_witness :
    ((parse_refactor_plan
        ("#### TASK-001: ".data ++
          (('H' :: "eading Title".data) ++ '\n' :: "Body first line\n".data))).map
      fun t => (t.id, t.title)).head? = some ("TASK-001", "Heading Title") := by
  have h := C4_parsed_title_is_heading_remainder 'H' "eading Title".data
    "Body first line\n".data (by decide) (by decide) (by decide) (by decide)
  rw [h]
  decide
